import Mathlib

/-!
# Verification of the quadrilateral folding core (src/app.py)

Shallow embedding of the algorithmic core of the folding-map visualizer:
the fold transformation (`fold`, app.py lines 8-17), the seed construction
(app.py lines 21-24 and 67-70), and the two collection loops
(orbit mode, app.py lines 26-29; frame mode, app.py lines 73-76).

Python floats are modelled as exact reals, complex values as `ℂ`.
`np.sqrt` applied to a *real* argument returns NaN when the argument is
negative (numpy does not promote real input to complex); NaN is modelled
as `Option.none`.  A Python `int` iteration count is modelled as `ℤ`;
`range(n)` for `n : ℤ` iterates `n.toNat` times, since Python's `range`
of a negative count is empty.
-/

noncomputable section

/-- An ordered quadrilateral: 4-tuple of complex vertices `(v0, v1, v2, v3)`. -/
abbrev Quad := ℂ × ℂ × ℂ × ℂ

/-- Function `fold` from app.py lines 8-17: reflect `v0` via the conjugate-ratio
formula and cyclically rotate the vertex roles. -/
def fold (v0 v1 v2 v3 : ℂ) : Quad :=
  let v0_folded := (starRingEnd ℂ) (v0 - v1) * (v3 - v1) / (starRingEnd ℂ) (v3 - v1) + v1
  (v1, v2, v3, v0_folded)

/-- Packed form of `fold`, applied to a quadrilateral, as in the loop bodies
`v0, v1, v2, v3 = fold(v0, v1, v2, v3)`. -/
def foldQ (q : Quad) : Quad := fold q.1 q.2.1 q.2.2.1 q.2.2.2

/-- The 4 vertices of a quadrilateral as a list, in `v0, v1, v2, v3` order
(the order of `all_points.extend([v0, v1, v2, v3])`, app.py line 29). -/
def quadList (q : Quad) : List ℂ := [q.1, q.2.1, q.2.2.1, q.2.2.2]

/-- Model of `np.sqrt` on a real argument: the non-negative real root for a
non-negative argument, NaN (modelled as `none`) for a negative one. -/
def np_sqrt (x : ℝ) : Option ℝ := if 0 ≤ x then some (Real.sqrt x) else none

/-- Seed construction, app.py lines 21-24 (identical at lines 67-70):
`v0 = -np.sqrt(1 + mu*nu - mu - nu) + 1j*mu`,
`v1 =  np.sqrt(1 + mu*nu - mu - nu) + 1j*nu`,
`v2 = v1.conjugate()`, `v3 = v0.conjugate()`.
`none` models the NaN seed obtained when the radicand is negative. -/
def make_seed (mu nu : ℝ) : Option Quad :=
  (np_sqrt (1 + mu * nu - mu - nu)).map (fun (s : ℝ) =>
    let v0 : ℂ := -(s : ℂ) + (mu : ℂ) * Complex.I
    let v1 : ℂ := (s : ℂ) + (nu : ℂ) * Complex.I
    (v0, v1, (starRingEnd ℂ) v1, (starRingEnd ℂ) v0))

/-- The orbit-collection loop of app.py lines 26-29, from an arbitrary
starting quadrilateral: `all_points = [v0, v1, v2, v3]`, then `iters`
times fold and extend with the 4 new vertices. -/
def collect_orbit_from (q : Quad) (iters : ℕ) : List ℂ :=
  ((List.range iters).foldl
    (fun st _ => (foldQ st.1, st.2 ++ quadList (foldQ st.1)))
    (q, quadList q)).2

/-- The frame-collection loop of app.py lines 73-76, from an arbitrary
starting quadrilateral: `frames = [(v0, v1, v2, v3)]`, then `iters` times
fold and append the new quadrilateral. -/
def collect_frames_from (q : Quad) (iters : ℕ) : List Quad :=
  ((List.range iters).foldl
    (fun st _ => (foldQ st.1, st.2 ++ [foldQ st.1]))
    (q, [q])).2

/-- Orbit mode (`collect_orbit` of the design document): seed from
app.py lines 21-24 followed by the loop of lines 26-29.  The Python
`range` of a negative count is empty, hence `iters.toNat`. -/
def collect_orbit (mu nu : ℝ) (iters : ℤ) : Option (List ℂ) :=
  (make_seed mu nu).map (fun q => collect_orbit_from q iters.toNat)

/-- Frame mode (`collect_frames` of the design document): seed from
app.py lines 67-70 followed by the loop of lines 73-76. -/
def collect_frames (mu nu : ℝ) (iters : ℤ) : Option (List Quad) :=
  (make_seed mu nu).map (fun q => collect_frames_from q iters.toNat)

/-- Vertices appended to the orbit list after the first `n` fold steps
(not counting the seed's own 4 vertices). -/
def orbitApp (q : Quad) : ℕ → List ℂ
  | 0 => []
  | n + 1 => orbitApp q n ++ quadList (foldQ^[n + 1] q)

/-- Quadrilaterals appended to the frame list after the first `n` fold
steps (not counting the seed frame). -/
def framesApp (q : Quad) : ℕ → List Quad
  | 0 => []
  | n + 1 => framesApp q n ++ [foldQ^[n + 1] q]

theorem orbit_loop_eq (q : Quad) (n : ℕ) (acc : List ℂ) :
    (List.range n).foldl
      (fun st _ => (foldQ st.1, st.2 ++ quadList (foldQ st.1))) (q, acc)
      = (foldQ^[n] q, acc ++ orbitApp q n) := by
  induction n with
  | zero => simp [orbitApp]
  | succ n ih =>
    rw [List.range_succ, List.foldl_append, ih]
    simp [orbitApp, Function.iterate_succ_apply' foldQ n q, List.append_assoc]

theorem frames_loop_eq (q : Quad) (n : ℕ) (acc : List Quad) :
    (List.range n).foldl
      (fun st _ => (foldQ st.1, st.2 ++ [foldQ st.1])) (q, acc)
      = (foldQ^[n] q, acc ++ framesApp q n) := by
  induction n with
  | zero => simp [framesApp]
  | succ n ih =>
    rw [List.range_succ, List.foldl_append, ih]
    simp [framesApp, Function.iterate_succ_apply' foldQ n q, List.append_assoc]

theorem collect_orbit_from_eq (q : Quad) (n : ℕ) :
    collect_orbit_from q n = quadList q ++ orbitApp q n := by
  rw [collect_orbit_from, orbit_loop_eq]

theorem collect_frames_from_eq (q : Quad) (n : ℕ) :
    collect_frames_from q n = q :: framesApp q n := by
  rw [collect_frames_from, frames_loop_eq]; rfl

theorem orbitApp_length (q : Quad) (n : ℕ) : (orbitApp q n).length = 4 * n := by
  induction n with
  | zero => rfl
  | succ n ih => simp [orbitApp, ih, quadList]; ring

theorem framesApp_length (q : Quad) (n : ℕ) : (framesApp q n).length = n := by
  induction n with
  | zero => rfl
  | succ n ih => simp [framesApp, ih]

theorem framesApp_flatten (q : Quad) (n : ℕ) :
    (framesApp q n).flatMap quadList = orbitApp q n := by
  induction n with
  | zero => rfl
  | succ n ih => simp [framesApp, orbitApp, ih]

theorem collect_orbit_from_length (q : Quad) (n : ℕ) :
    (collect_orbit_from q n).length = 4 * (n + 1) := by
  simp [collect_orbit_from_eq, orbitApp_length, quadList]; ring

theorem collect_frames_from_length (q : Quad) (n : ℕ) :
    (collect_frames_from q n).length = n + 1 := by
  simp [collect_frames_from_eq, framesApp_length]

theorem collect_frames_from_flatten (q : Quad) (n : ℕ) :
    (collect_frames_from q n).flatMap quadList = collect_orbit_from q n := by
  simp [collect_frames_from_eq, collect_orbit_from_eq, List.flatMap_cons,
    framesApp_flatten]

/-- The seed for a non-negative radicand, written out with the real root. -/
theorem make_seed_of_nonneg (mu nu : ℝ) (h : 0 ≤ 1 + mu * nu - mu - nu) :
    make_seed mu nu =
      some (-(Real.sqrt (1 + mu * nu - mu - nu) : ℂ) + (mu : ℂ) * Complex.I,
            (Real.sqrt (1 + mu * nu - mu - nu) : ℂ) + (nu : ℂ) * Complex.I,
            (starRingEnd ℂ) ((Real.sqrt (1 + mu * nu - mu - nu) : ℂ) + (nu : ℂ) * Complex.I),
            (starRingEnd ℂ) (-(Real.sqrt (1 + mu * nu - mu - nu) : ℂ) + (mu : ℂ) * Complex.I)) := by
  unfold make_seed np_sqrt
  rw [if_pos h]
  rfl

/-- Concrete seed at `mu = nu = 0`: radicand is `1`, so the root is `1`. -/
theorem seed_zero : make_seed 0 0 = some (-1, 1, 1, -1) := by
  rw [make_seed_of_nonneg 0 0 (by norm_num)]
  norm_num

/-- Concrete seed at `mu = nu = 1`: radicand is `0`. -/
theorem seed_one : make_seed 1 1 = some (Complex.I, Complex.I, -Complex.I, -Complex.I) := by
  rw [make_seed_of_nonneg 1 1 (by norm_num)]
  norm_num

/-- C3: for every quadrilateral with `v3 ≠ v1`, `fold` returns
`(v1, v2, v3, folded)` with
`folded = conj (v0 - v1) * (v3 - v1) / conj (v3 - v1) + v1`, and the
denominator of the reflection formula is nonzero. -/
theorem claim_fold_formula (v0 v1 v2 v3 : ℂ) (h : v3 ≠ v1) :
    (starRingEnd ℂ) (v3 - v1) ≠ 0 ∧
    fold v0 v1 v2 v3 =
      (v1, v2, v3,
        (starRingEnd ℂ) (v0 - v1) * (v3 - v1) / (starRingEnd ℂ) (v3 - v1) + v1) := by
  refine ⟨?_, rfl⟩
  rw [starRingEnd_apply]
  exact star_ne_zero.mpr (sub_ne_zero.mpr h)

/-- Witness for C3 at the concrete quadrilateral `(2, 0, 0, 1)`. -/
theorem claim_fold_formula_witness :
    (starRingEnd ℂ) ((1 : ℂ) - 0) ≠ 0 ∧
    fold 2 0 0 1 =
      (0, 0, 1,
        (starRingEnd ℂ) ((2 : ℂ) - 0) * ((1 : ℂ) - 0) / (starRingEnd ℂ) ((1 : ℂ) - 0) + 0) :=
  claim_fold_formula 2 0 0 1 one_ne_zero

/-- C10: when `v3 ≠ v1`, the folded vertex keeps the distance of the old
`v0` from the anchor `v1`: the reflection step is an isometry about `v1`. -/
theorem claim_fold_isometry (v0 v1 v2 v3 : ℂ) (h : v3 ≠ v1) :
    Complex.abs ((fold v0 v1 v2 v3).2.2.2 - v1) = Complex.abs (v0 - v1) := by
  have h1 : v3 - v1 ≠ 0 := sub_ne_zero.mpr h
  have h2 : Complex.abs (v3 - v1) ≠ 0 := Complex.abs.ne_zero h1
  show Complex.abs
      ((starRingEnd ℂ) (v0 - v1) * (v3 - v1) / (starRingEnd ℂ) (v3 - v1) + v1 - v1)
      = Complex.abs (v0 - v1)
  rw [add_sub_cancel_right, map_div₀, map_mul, Complex.abs_conj, Complex.abs_conj,
    mul_div_assoc, div_self h2, mul_one]

/-- Witness for C10 at the concrete quadrilateral `(3, 0, 0, 1)`. -/
theorem claim_fold_isometry_witness :
    Complex.abs ((fold 3 0 0 1).2.2.2 - 0) = Complex.abs (3 - 0) :=
  claim_fold_isometry 3 0 0 1 one_ne_zero

/-- C4: for all real `mu`, `nu` and every iteration count, flattening the
frame sequence in order yields exactly the orbit point sequence. -/
theorem claim_frames_refine_orbit (mu nu : ℝ) (n : ℤ) :
    (collect_frames mu nu n).map (fun f => f.flatMap quadList)
      = collect_orbit mu nu n := by
  unfold collect_frames collect_orbit
  cases make_seed mu nu with
  | none => rfl
  | some q => simp [collect_frames_from_flatten]

/-- C5: for `n ≥ 1` the orbit sequence has length `4 * (n + 1)` and the
frame sequence has length `n + 1`; the loops run exactly `n` steps. -/
theorem claim_lengths (mu nu : ℝ) (n : ℤ) (hn : 1 ≤ n) (l : List ℂ) (f : List Quad)
    (ho : collect_orbit mu nu n = some l) (hf : collect_frames mu nu n = some f) :
    (l.length : ℤ) = 4 * (n + 1) ∧ (f.length : ℤ) = n + 1 := by
  have h0 : (0 : ℤ) ≤ n := le_trans zero_le_one hn
  unfold collect_orbit at ho
  unfold collect_frames at hf
  cases hq : make_seed mu nu with
  | none => rw [hq] at ho; cases ho
  | some q =>
    rw [hq] at ho hf
    simp only [Option.map_some', Option.some.injEq] at ho hf
    rw [← ho, ← hf, collect_orbit_from_length, collect_frames_from_length]
    push_cast [Int.toNat_of_nonneg h0]
    constructor <;> ring

/-- Witness for C5 at `mu = nu = 0`, `n = 1`. -/
theorem claim_lengths_witness :
    ((collect_orbit_from (-1, 1, 1, -1) 1).length : ℤ) = 4 * (1 + 1) ∧
    ((collect_frames_from (-1, 1, 1, -1) 1).length : ℤ) = 1 + 1 :=
  claim_lengths 0 0 1 (by norm_num) _ _
    (by rw [collect_orbit, seed_zero]; rfl)
    (by rw [collect_frames, seed_zero]; rfl)

/-- C6: with zero iterations the orbit is exactly the seed's 4 vertices in
order and the frame sequence is the singleton seed quadrilateral. -/
theorem claim_zero_iterations (mu nu : ℝ) (v0 v1 v2 v3 : ℂ)
    (h : make_seed mu nu = some (v0, v1, v2, v3)) :
    collect_orbit mu nu 0 = some [v0, v1, v2, v3] ∧
    collect_frames mu nu 0 = some [(v0, v1, v2, v3)] := by
  unfold collect_orbit collect_frames
  rw [h]
  exact ⟨rfl, rfl⟩

/-- Witness for C6 at `mu = nu = 0`. -/
theorem claim_zero_iterations_witness :
    collect_orbit 0 0 0 = some [-1, 1, 1, -1] ∧
    collect_frames 0 0 0 = some [(-1, 1, 1, -1)] :=
  claim_zero_iterations 0 0 (-1) 1 1 (-1) seed_zero

/-- C8: every constructed seed satisfies `v2 = conj v1` and
`v3 = conj v0`, so the seed is symmetric about the real axis. -/
theorem claim_seed_symmetry (mu nu : ℝ) (q : Quad)
    (h : make_seed mu nu = some q) :
    q.2.2.1 = (starRingEnd ℂ) q.2.1 ∧ q.2.2.2 = (starRingEnd ℂ) q.1 := by
  unfold make_seed at h
  cases hs : np_sqrt (1 + mu * nu - mu - nu) with
  | none => rw [hs] at h; cases h
  | some s =>
    rw [hs] at h
    simp only [Option.map_some', Option.some.injEq] at h
    rw [← h]
    exact ⟨rfl, rfl⟩

/-- Witness for C8 at `mu = nu = 0`. -/
theorem claim_seed_symmetry_witness :
    ((-1, 1, 1, -1) : Quad).2.2.1 = (starRingEnd ℂ) ((-1, 1, 1, -1) : Quad).2.1 ∧
    ((-1, 1, 1, -1) : Quad).2.2.2 = (starRingEnd ℂ) ((-1, 1, 1, -1) : Quad).1 :=
  claim_seed_symmetry 0 0 (-1, 1, 1, -1) seed_zero

/-- C9: the core is deterministic: equal inputs give equal orbit
sequences, equal frame sequences and equal fold results. -/
theorem claim_determinism (mu nu mu2 nu2 : ℝ) (n n2 : ℤ)
    (a0 a1 a2 a3 b0 b1 b2 b3 : ℂ)
    (hmu : mu = mu2) (hnu : nu = nu2) (hn : n = n2)
    (h0 : a0 = b0) (h1 : a1 = b1) (h2 : a2 = b2) (h3 : a3 = b3) :
    collect_orbit mu nu n = collect_orbit mu2 nu2 n2 ∧
    collect_frames mu nu n = collect_frames mu2 nu2 n2 ∧
    fold a0 a1 a2 a3 = fold b0 b1 b2 b3 := by
  subst hmu hnu hn h0 h1 h2 h3
  exact ⟨rfl, rfl, rfl⟩

/-- Witness for C9 at `mu = nu = 0`, `n = 2`, unit fold arguments. -/
theorem claim_determinism_witness :
    collect_orbit 0 0 2 = collect_orbit 0 0 2 ∧
    collect_frames 0 0 2 = collect_frames 0 0 2 ∧
    fold 1 2 3 4 = fold 1 2 3 4 :=
  claim_determinism 0 0 0 0 2 2 1 2 3 4 1 2 3 4 rfl rfl rfl rfl rfl rfl rfl

/-- C1 counterexample: at `mu = nu = 1`, `n = -1`, both collectors return
a normal (non-failing) result identical to the zero-iteration result:
`range` of a negative count is empty and no validation precedes the loop,
so the negative count is silently treated as zero. -/
theorem claim_negative_rejected_counterexample :
    collect_orbit 1 1 (-1) = collect_orbit 1 1 0 ∧
    collect_frames 1 1 (-1) = collect_frames 1 1 0 ∧
    (collect_orbit 1 1 (-1)).isSome = true ∧
    (collect_frames 1 1 (-1)).isSome = true := by
  refine ⟨rfl, rfl, ?_, ?_⟩
  · rw [collect_orbit, seed_one]; rfl
  · rw [collect_frames, seed_one]; rfl

/-- C1 amended: a negative iteration count is not rejected; both
collectors silently behave exactly as with zero iterations. -/
theorem claim_negative_silently_zero (mu nu : ℝ) (n : ℤ) (hn : n < 0) :
    collect_orbit mu nu n = collect_orbit mu nu 0 ∧
    collect_frames mu nu n = collect_frames mu nu 0 := by
  have h0 : n.toNat = 0 := Int.toNat_of_nonpos hn.le
  unfold collect_orbit collect_frames
  rw [h0]
  exact ⟨rfl, rfl⟩

/-- Witness for amended C1 at `mu = nu = 0`, `n = -2`. -/
theorem claim_negative_silently_zero_witness :
    (collect_orbit 0 0 (-2) = collect_orbit 0 0 0 ∧
     collect_frames 0 0 (-2) = collect_frames 0 0 0) :=
  claim_negative_silently_zero 0 0 (-2) (by norm_num)

/-- Modelled from the spec: the seed construction as §4.1 words it, with
`sqrt` the principal complex square root (pure-imaginary result for a
negative radicand).  Used only to compare the spec's words with the code,
whose `np.sqrt` acts on a real argument. -/
def sqrtC_spec (x : ℝ) : ℂ :=
  if 0 ≤ x then (Real.sqrt x : ℂ) else (Real.sqrt (-x) : ℂ) * Complex.I

/-- Modelled from the spec: `make_seed` of §4.1 built on the principal
complex square root. -/
def make_seed_spec (mu nu : ℝ) : Quad :=
  let s := sqrtC_spec (1 + mu * nu - mu - nu)
  let v0 := -s + (mu : ℂ) * Complex.I
  let v1 := s + (nu : ℂ) * Complex.I
  (v0, v1, (starRingEnd ℂ) v1, (starRingEnd ℂ) v0)

/-- C2 counterexample: at `mu = 2`, `nu = 0` the radicand is negative;
the code's `np.sqrt` of a negative real is NaN (`none`), so the seed is
not a well-defined quadrilateral, while the spec's complex square root
would give the pure-imaginary seed `(I, I, -I, -I)`. -/
theorem claim_seed_total_counterexample :
    (1 + 2 * 0 - 2 - 0 : ℝ) < 0 ∧
    make_seed 2 0 = none ∧
    make_seed_spec 2 0 = (Complex.I, Complex.I, -Complex.I, -Complex.I) ∧
    make_seed 2 0 ≠ some (make_seed_spec 2 0) := by
  have hneg : ¬ (0 : ℝ) ≤ 1 + 2 * 0 - 2 - 0 := by norm_num
  have h1 : make_seed 2 0 = none := by
    unfold make_seed np_sqrt
    rw [if_neg hneg]
    rfl
  have h2 : make_seed_spec 2 0 = (Complex.I, Complex.I, -Complex.I, -Complex.I) := by
    unfold make_seed_spec sqrtC_spec
    rw [if_neg hneg]
    norm_num
    refine ⟨by ring, ?_⟩
    rw [map_ofNat]
    ring
  exact ⟨by norm_num, h1, h2, by rw [h1]; exact fun hc => Option.noConfusion hc⟩

/-- C2 amended: for a non-negative radicand the seed is well-defined, the
root is the usual non-negative real square root, and the code's seed
agrees with the spec's complex-square-root construction; for a negative
radicand the code's seed is NaN (undefined), not pure-imaginary. -/
theorem claim_seed_welldefined_nonneg (mu nu : ℝ) (h : 0 ≤ 1 + mu * nu - mu - nu) :
    0 ≤ Real.sqrt (1 + mu * nu - mu - nu) ∧
    Real.sqrt (1 + mu * nu - mu - nu) ^ 2 = 1 + mu * nu - mu - nu ∧
    make_seed mu nu = some (make_seed_spec mu nu) := by
  refine ⟨Real.sqrt_nonneg _, Real.sq_sqrt h, ?_⟩
  rw [make_seed_of_nonneg mu nu h]
  unfold make_seed_spec sqrtC_spec
  rw [if_pos h]

/-- Witness for amended C2 at `mu = nu = 0`. -/
theorem claim_seed_welldefined_nonneg_witness :
    0 ≤ Real.sqrt (1 + 0 * 0 - 0 - 0) ∧
    Real.sqrt (1 + 0 * 0 - 0 - 0) ^ 2 = 1 + 0 * 0 - 0 - 0 ∧
    make_seed 0 0 = some (make_seed_spec 0 0) :=
  claim_seed_welldefined_nonneg 0 0 (by norm_num)
